import Mathlib

/-!
# tg-mp3-downloader: a shallow embedding of `main.go`

Go strings are modelled as lists of characters (`GoString`).  Every marker,
pattern and reserved character used by the program is ASCII, so matching on
code points and matching on the UTF-8 bytes of a well-formed text agree.

External collaborators (the chat transport, the HTTP client, the YouTube
library, the transcoder, the file system) are modelled by the values they hand
back to the program: the program's own control flow is what is embedded.
-/

namespace TgMp3

/-- A Go string, as the sequence of its characters. -/
abbrev GoString := List Char

/-! ## `strings.Contains` and the link classifier (main.go 156-165) -/

/-- Go `strings.Contains(s, substr)`: some suffix of `s` starts with `substr`. -/
def stringsContains (s substr : GoString) : Bool :=
  s.tails.any (fun t => substr.isPrefixOf t)

/-- Go `isYouTubeLink` (main.go 157-160). -/
def isYouTubeLink (text : GoString) : Bool :=
  stringsContains text "youtube.com/".toList ||
    stringsContains text "youtu.be/".toList

/-- Go `isSoundCloudLink` (main.go 163-165). -/
def isSoundCloudLink (text : GoString) : Bool :=
  stringsContains text "soundcloud.com/".toList

/-! ## `regexp` on the three patterns of the program -/

/-- The double quote character. -/
def quoteChar : Char := Char.ofNat 34

/-- The character class of `sanitizeFileName`: one of `< > : " / \ | ? *`
(main.go 332). -/
def isReservedChar (c : Char) : Bool :=
  c = '<' || c = '>' || c = ':' || c = quoteChar || c = '/' ||
    c = Char.ofNat 92 || c = '|' || c = '?' || c = '*'

/-- Go `re.ReplaceAllString(src, repl)` for a pattern that is a single
character class: scanning left to right, each character of the class is one
match and is replaced by `repl`, every other character is copied. -/
def replaceAllClass (cls : Char → Bool) (repl : GoString) : GoString → GoString
  | [] => []
  | c :: cs =>
    if cls c then repl ++ replaceAllClass cls repl cs
    else c :: replaceAllClass cls repl cs

/-- Go `sanitizeFileName` (main.go 331-334). -/
def sanitizeFileName (name : GoString) : GoString :=
  replaceAllClass isReservedChar "_".toList name

/-- The pattern `lit([^"]+)"` anchored at the start of `s`, where `lit` is a
literal: after `lit` the group takes the longest run of non-quote characters,
which must be non-empty and be followed by a quote.  The result is the
group. -/
def fieldMatchAt (lit s : GoString) : Option GoString :=
  if lit.isPrefixOf s then
    let rest := s.drop lit.length
    let grp := rest.takeWhile (fun c => c != quoteChar)
    match rest.dropWhile (fun c => c != quoteChar) with
    | [] => none
    | _ :: _ => if grp = [] then none else some grp
  else none

/-- Go `re.FindStringSubmatch(content)` for the pattern `lit([^"]+)"`: the
group of the leftmost match, `none` when `len(matches) < 2`. -/
def findFieldSubmatch (lit : GoString) : GoString → Option GoString
  | [] => none
  | c :: cs =>
    match fieldMatchAt lit (c :: cs) with
    | some grp => some grp
    | none => findFieldSubmatch lit cs

/-- The literal part of the pattern of main.go 291. -/
def downloadUrlLit : GoString := "\"download_url\":\"".toList

/-- The literal part of the pattern of main.go 299. -/
def titleLit : GoString := "\"title\":\"".toList

/-- Go `strings.ReplaceAll(s, old, new)` for a non-empty `old`; `skip` counts
the characters of a match still to be dropped. -/
def replaceAllAux (old new : GoString) : Nat → GoString → GoString
  | _, [] => []
  | 0, c :: cs =>
    if old.isPrefixOf (c :: cs) then new ++ replaceAllAux old new (old.length - 1) cs
    else c :: replaceAllAux old new 0 cs
  | k + 1, _ :: cs => replaceAllAux old new k cs

/-- Go `strings.ReplaceAll(s, old, new)` for a non-empty `old`. -/
def stringsReplaceAll (s old new : GoString) : GoString :=
  replaceAllAux old new 0 s

/-! ## `path/filepath` (Unix) -/

/-- Split a path at every `/`. -/
def splitSlash : GoString → List GoString
  | [] => [[]]
  | c :: cs =>
    if c = '/' then [] :: splitSlash cs
    else
      match splitSlash cs with
      | [] => [[c]]
      | h :: t => (c :: h) :: t

/-- One step of `filepath.Clean`: `stack` holds the kept components, last
first.  Empty and `.` components are dropped, `..` removes the component
before it (or is dropped at the root, or kept at the start of a relative
path). -/
def cleanPush (rooted : Bool) (stack : List GoString) (comp : GoString) :
    List GoString :=
  if comp = [] ∨ comp = ".".toList then stack
  else if comp = "..".toList then
    match stack with
    | [] => if rooted then [] else [comp]
    | top :: below => if top = "..".toList then comp :: stack else below
  else comp :: stack

/-- Go `filepath.Clean`. -/
def filepathClean (path : GoString) : GoString :=
  if path = [] then ".".toList
  else
    let rooted := path.head? = some '/'
    let comps := ((splitSlash path).foldl (cleanPush rooted) []).reverse
    let body := "/".toList.intercalate comps
    if rooted then '/' :: body
    else if body = [] then ".".toList else body

/-- Go `filepath.Join`: empty elements are ignored, the rest joined with `/`
and cleaned; the result is empty when there is nothing to join. -/
def filepathJoin (elems : List GoString) : GoString :=
  match elems.filter (fun e => e != []) with
  | [] => []
  | kept => filepathClean ("/".toList.intercalate kept)

/-! ## Constants and errors -/

/-- Go constant `tempDir` (main.go 22). -/
def tempDir : GoString := "tmp".toList

/-- Go constant `maxDownloadSize` (main.go 23). -/
def maxDownloadSize : Int := 50 * 1024 * 1024

/-- The errors of the program; the message of each is built at the place
named. -/
inductive Err where
  /-- An error returned unchanged from a library call. -/
  | library (detail : GoString)
  /-- Built at main.go 172 from the error of `GetVideo`. -/
  | getVideoFailed (detail : GoString)
  /-- Built at main.go 184. -/
  | noAudioStream
  /-- Built at main.go 225 from the error of the transcoder. -/
  | conversionFailed (detail : GoString)
  /-- Built at main.go 280 with the status code. -/
  | pageNotFound (status : Int)
  /-- Built at main.go 294. -/
  | scrapeFailed
  /-- Built at main.go 256 with the size in MB. -/
  | tooLarge (megabytes : Int)
  /-- Built at main.go 122. -/
  | unsupportedPlatform
  /-- Built at main.go 318 with the file size. -/
  | tooLargeForTelegram (size : Nat)
  deriving DecidableEq, Repr

/-- The path both adapters build for a title (main.go 188 and 240). -/
def downloadPath (title : GoString) : GoString :=
  filepathJoin [tempDir, sanitizeFileName title ++ ".mp3".toList]

/-! ## The YouTube adapter (main.go 168-196) -/

/-- The fields of `youtube.Format` the program reads. -/
structure Format where
  AudioChannels : Int
  Bitrate : Int
  deriving DecidableEq, Repr

/-- The fields of `youtube.Video` the program reads. -/
structure Video where
  Title : GoString
  Formats : List Format
  deriving DecidableEq, Repr

/-- The body of the selection loop (main.go 178-180), each iteration having
its own variable `f` (the range-loop semantics of Go 1.22 and later): the
pointer `format` is modelled by the value it designates. -/
def selectStep : Option Format → Format → Option Format
  | none, f => if f.AudioChannels > 0 then some f else none
  | some cur, f =>
    if f.AudioChannels > 0 ∧ f.Bitrate > cur.Bitrate then some f else some cur

/-- The selection loop of `downloadYouTube` (main.go 176-181). -/
def selectFormat (formats : List Format) : Option Format :=
  formats.foldl selectStep none

/-- The same loop body when the whole loop shares one variable `f` (Go before
1.22): `format`, once set, is the address of `f`, so the test
`f.Bitrate > format.Bitrate` compares `f` with itself and the only state is
whether `format` is set. -/
def selectStepSharedVar : Bool → Format → Bool
  | false, f => decide (f.AudioChannels > 0)
  | true, _ => true

/-- The selection loop under the shared loop variable of Go before 1.22:
when `format` is set it designates `f`, which holds the last element. -/
def selectFormatSharedVar (formats : List Format) : Option Format :=
  if formats.foldl selectStepSharedVar false then formats.getLast? else none

/-- What `downloadAndConvertYouTube` (main.go 199-229) returns. -/
inductive ConvertOutcome where
  | done
  | libraryError (detail : GoString)
  | conversionError (detail : GoString)
  deriving DecidableEq, Repr

/-- Go `downloadYouTube` (main.go 168-196), the library call `GetVideo` and
the download-and-convert step being given by what they return. -/
def downloadYouTube (getVideo : GoString → Except GoString Video)
    (convert : Video → Format → GoString → ConvertOutcome) (url : GoString) :
    GoString × Option Err :=
  match getVideo url with
  | .error e => ([], some (.getVideoFailed e))
  | .ok video =>
    match selectFormat video.Formats with
    | none => ([], some .noAudioStream)
    | some format =>
      let filePath := downloadPath video.Title
      match convert video format filePath with
      | .libraryError e => ([], some (.library e))
      | .conversionError e => ([], some (.conversionFailed e))
      | .done => (filePath, none)

/-! ## The SoundCloud adapter (main.go 232-306) -/

/-- What the program reads of an HTTP response: the status code, the declared
`ContentLength` (`-1` when unknown), the bytes the body delivers and the error
(if any) that ends the body after them. -/
structure HttpResponse where
  statusCode : Int
  contentLength : Int
  body : GoString
  bodyErr : Option GoString

/-- Go `getSoundCloudDownloadURL` (main.go 268-306) on the outcome of
`client.Get(pageURL)`; the result is the triple the Go function returns. -/
def getSoundCloudDownloadURL (page : Except GoString HttpResponse) :
    GoString × GoString × Option Err :=
  match page with
  | .error e => ([], [], some (.library e))
  | .ok resp =>
    if resp.statusCode ≠ 200 then ([], [], some (.pageNotFound resp.statusCode))
    else
      match resp.bodyErr with
      | some e => ([], [], some (.library e))
      | none =>
        let content := resp.body
        match findFieldSubmatch downloadUrlLit content with
        | none => ([], [], some .scrapeFailed)
        | some m1 =>
          let downloadURL := stringsReplaceAll m1 "\\u0026".toList "&".toList
          match findFieldSubmatch titleLit content with
          | none => (downloadURL, "soundcloud_track".toList, none)
          | some t1 => (downloadURL, t1, none)

/-- The working directory's files: the content stored under each path. -/
abbrev FileSystem := GoString → Option GoString

/-- Go `os.Create` when it succeeds: the file exists and is empty. -/
def osCreate (fs : FileSystem) (path : GoString) : FileSystem :=
  fun q => if q = path then some [] else fs q

/-- Writing `data` at the end of the file at `path` (`io.Copy` into it). -/
def fsAppend (fs : FileSystem) (path data : GoString) : FileSystem :=
  fun q => if q = path then some ((fs q).getD [] ++ data) else fs q

/-- Go `os.Remove`: afterwards there is no file at `path`. -/
def osRemove (fs : FileSystem) (path : GoString) : FileSystem :=
  fun q => if q = path then none else fs q

/-- The surroundings of the SoundCloud adapter: what the two HTTP requests
return and whether `os.Create` succeeds (its error otherwise). -/
structure ScEnv where
  pageGet : GoString → Except GoString HttpResponse
  createErr : GoString → Option GoString
  fileGet : GoString → Except GoString HttpResponse

/-- Go `downloadSoundCloud` (main.go 232-265): the pair it returns and the file
system it leaves. -/
def downloadSoundCloud (env : ScEnv) (url : GoString) (fs : FileSystem) :
    (GoString × Option Err) × FileSystem :=
  match getSoundCloudDownloadURL (env.pageGet url) with
  | (_, _, some e) => (([], some e), fs)
  | (downloadURL, title, none) =>
    let filePath := downloadPath title
    match env.createErr filePath with
    | some e => (([], some (.library e)), fs)
    | none =>
      let fs1 := osCreate fs filePath
      match env.fileGet downloadURL with
      | .error e => (([], some (.library e)), fs1)
      | .ok resp =>
        if resp.contentLength > maxDownloadSize then
          (([], some (.tooLarge ((resp.contentLength.tdiv 1024).tdiv 1024))), fs1)
        else
          let fs2 := fsAppend fs1 filePath resp.body
          match resp.bodyErr with
          | some e => (([], some (.library e)), fs2)
          | none => ((filePath, none), fs2)

/-! ## Effects on the chat and the log -/

/-- What the program does to the outside: messages to a chat, an upload, a log
line, a started download task. -/
inductive Effect where
  /-- A text reply `bot.Send(msg)`, with or without the platform keyboard. -/
  | sendText (chatID : Int) (text : GoString) (keyboard : Bool)
  /-- The message of main.go 126-127: the error prefix followed by the error. -/
  | sendError (chatID : Int) (err : Err)
  /-- The upload `bot.Send(audio)` of main.go 326, with the file name. -/
  | uploadAudio (chatID : Int) (name : GoString)
  /-- The log line of main.go 133. -/
  | logSendFailure (err : Err)
  /-- The goroutine started at main.go 112-138 with its three arguments. -/
  | spawnTask (chatID : Int) (platform url : GoString)
  deriving DecidableEq, Repr

/-- Whether an effect is an error message shown to the user. -/
def Effect.isUserError : Effect → Bool
  | .sendError _ _ => true
  | _ => false

/-- Whether an effect is an upload attempt. -/
def Effect.isUpload : Effect → Bool
  | .uploadAudio _ _ => true
  | _ => false

/-! ## Delivery and the download task (main.go 112-138, 309-328) -/

/-- Go `filepath.Base` of a path: its last component. -/
def filepathBase (path : GoString) : GoString :=
  match (splitSlash path).filter (fun c => c != []) with
  | [] => if path = [] then ".".toList else "/".toList
  | c :: cs => (c :: cs).getLast (List.cons_ne_nil c cs)

/-- Go `sendAudioFile` (main.go 309-328): the error it returns and what it
sends.  `openErr` is the error of `os.Open` when the file is absent and
`uploadErr` the error of the upload, if any. -/
def sendAudioFile (fs : FileSystem) (openErr : GoString)
    (uploadErr : Option GoString) (chatID : Int) (filePath : GoString) :
    Option Err × List Effect :=
  match fs filePath with
  | none => (some (.library openErr), [])
  | some content =>
    if (content.length : Int) > 50 * 1024 * 1024 then
      (some (.tooLargeForTelegram content.length), [])
    else
      (uploadErr.map Err.library, [.uploadAudio chatID (filepathBase filePath)])

/-- The delivery step of the task (main.go 131-137): `sendAudioFile`, the log
line when it fails, then `os.Remove`. -/
def deliverAndCleanup (fs : FileSystem) (openErr : GoString)
    (uploadErr : Option GoString) (chatID : Int) (filePath : GoString) :
    List Effect × FileSystem :=
  match sendAudioFile fs openErr uploadErr chatID filePath with
  | (some e, sent) => (sent ++ [.logSendFailure e], osRemove fs filePath)
  | (none, sent) => (sent, osRemove fs filePath)

/-- An adapter as the task sees it: from the link and the file system to the
pair it returns and the file system it leaves. -/
abbrev Adapter := GoString → FileSystem → (GoString × Option Err) × FileSystem

/-- The `switch platform` of main.go 116-123: the values of `filePath` and
`err` after it, and the file system the adapter leaves. -/
def runAdapter (youTube soundCloud : Adapter) (platform url : GoString)
    (fs : FileSystem) : (GoString × Option Err) × FileSystem :=
  if platform = "YouTube".toList then youTube url fs
  else if platform = "SoundCloud".toList then soundCloud url fs
  else (([], some .unsupportedPlatform), fs)

/-- The goroutine body of main.go 112-138. -/
def downloadTask (youTube soundCloud : Adapter) (openErr : GoString)
    (uploadErr : Option GoString) (fs : FileSystem) (chatID : Int)
    (platform url : GoString) : List Effect × FileSystem :=
  match runAdapter youTube soundCloud platform url fs with
  | ((_, some e), fs1) => ([.sendError chatID e], fs1)
  | ((filePath, none), fs1) => deliverAndCleanup fs1 openErr uploadErr chatID filePath

/-! ## The dispatch loop (main.go 56-143) -/

/-- The fields of a chat message the loop reads; `isCommand` and `command` are
what `IsCommand()` and `Command()` return. -/
structure Message where
  chatID : Int
  fromID : Int
  text : GoString
  isCommand : Bool
  command : GoString

/-- An update; `message` is `none` when `update.Message` is nil. -/
structure Update where
  message : Option Message

/-- The map `platformChoice` (main.go 27): user id to the stored link. -/
abbrev Store := Int → Option GoString

/-- The greeting of main.go 68. -/
def greetingText : GoString :=
  "Привет! Отправь мне ссылку на трек из YouTube или SoundCloud, и я скачаю его для тебя.".toList

/-- The prompt of main.go 83. -/
def choosePlatformText : GoString := "Выбери платформу для скачивания:".toList

/-- The reply of main.go 101. -/
def sendLinkFirstText : GoString := "Сначала отправь мне ссылку на трек".toList

/-- The reply of main.go 140. -/
def usageText : GoString := "Отправь мне ссылку на YouTube или SoundCloud трек".toList

/-- One iteration of the loop of main.go 56-143: the map afterwards and the
effects, in order. -/
def handleUpdate (pc : Store) (upd : Update) : Store × List Effect :=
  match upd.message with
  | none => (pc, [])
  | some m =>
    if m.isCommand && m.command == "start".toList then
      (pc, [.sendText m.chatID greetingText false])
    else if m.text = [] then (pc, [])
    else if isYouTubeLink m.text || isSoundCloudLink m.text then
      (Function.update pc m.fromID (some m.text),
        [.sendText m.chatID choosePlatformText true])
    else if m.text = "YouTube".toList ∨ m.text = "SoundCloud".toList then
      match pc m.fromID with
      | none => (pc, [.sendText m.chatID sendLinkFirstText false])
      | some link =>
        (Function.update pc m.fromID none, [.spawnTask m.chatID m.text link])
    else (pc, [.sendText m.chatID usageText false])

/-- The loop over a sequence of updates: the final map and all effects. -/
def dispatch (pc : Store) : List Update → Store × List Effect
  | [] => (pc, [])
  | upd :: rest =>
    let r := handleUpdate pc upd
    let r2 := dispatch r.1 rest
    (r2.1, r.2 ++ r2.2)

/-! ## Declarative readings used in the statements -/

/-- Whether the update is a message of user `u` whose text is a link. -/
def Update.linkFrom (u : Int) (upd : Update) : Bool :=
  match upd.message with
  | none => false
  | some m => m.fromID == u && (isYouTubeLink m.text || isSoundCloudLink m.text)

/-- Whether the update is a message of user `u` whose text is one of the two
platform names. -/
def Update.choiceFrom (u : Int) (upd : Update) : Bool :=
  match upd.message with
  | none => false
  | some m =>
    m.fromID == u && (m.text == "YouTube".toList || m.text == "SoundCloud".toList)

/-- Whether the loop answers the message with the greeting (main.go 65-71). -/
def Message.isStart (m : Message) : Bool :=
  m.isCommand && m.command == "start".toList

/-- The sample page fragment of the specification. -/
def sampleFragment : GoString :=
  "\"download_url\":\"https:\\/\\/x\\/y?a=1\\u0026b=2\",\"title\":\"My Track\"".toList

/-- A plain text message of user `u` in chat `c`. -/
def textMessage (c u : Int) (text : GoString) : Message :=
  ⟨c, u, text, false, []⟩

/-- A SoundCloud environment whose page holds the sample fragment and whose
download declares 60 MiB. -/
def sampleScEnv : ScEnv where
  pageGet := fun _ => .ok ⟨200, -1, sampleFragment, none⟩
  createErr := fun _ => none
  fileGet := fun _ => .ok ⟨200, 60 * 1024 * 1024, "ID3".toList, none⟩

/-- The file system with no file. -/
def emptyFs : FileSystem := fun _ => none

/-- A file system with one small file at `tmp/a.mp3`. -/
def smallFileFs : FileSystem :=
  fun q => if q = "tmp/a.mp3".toList then some "ID3".toList else none

/-- A file system with one file of 50 MiB and one byte at `tmp/a.mp3`. -/
def bigFileFs : FileSystem :=
  fun q => if q = "tmp/a.mp3".toList then some (List.replicate 52428801 'x') else none

/-- An adapter that succeeds with the path `tmp/a.mp3` and leaves the file
system as it is. -/
def fixedPathAdapter : Adapter :=
  fun _ fs => (("tmp/a.mp3".toList, none), fs)

/-- An adapter that fails with the scrape error. -/
def failingAdapter : Adapter :=
  fun _ fs => (([], some .scrapeFailed), fs)

/-- A match of the pattern `lit([^"]+)"` somewhere in `s`: the literal, then a
non-empty group free of quotes, then a quote. -/
def HasFieldMatch (lit s : GoString) : Prop :=
  ∃ a g b, s = a ++ lit ++ g ++ quoteChar :: b ∧ g ≠ [] ∧ quoteChar ∉ g

/-! ## Shared lemmas -/

theorem stringsContains_iff (s substr : GoString) :
    stringsContains s substr = true ↔ substr <:+: s := by
  unfold stringsContains
  rw [List.any_eq_true]
  constructor
  · rintro ⟨t, ht, hp⟩
    rw [List.mem_tails] at ht
    have hp2 : substr <+: t := List.isPrefixOf_iff_prefix.mp hp
    exact List.IsInfix.trans hp2.isInfix ht.isInfix
  · intro h
    obtain ⟨t, hp, hs⟩ := List.infix_iff_prefix_suffix.mp h
    exact ⟨t, (List.mem_tails _ _).mpr hs, List.isPrefixOf_iff_prefix.mpr hp⟩

theorem replaceAllClass_eq_map (cls : Char → Bool) (r : Char) (s : GoString) :
    replaceAllClass cls [r] s = s.map (fun c => if cls c then r else c) := by
  induction s with
  | nil => rfl
  | cons c cs ih =>
    unfold replaceAllClass
    by_cases h : cls c = true
    · simp [h, ih]
    · simp [h, ih]

theorem sanitizeFileName_eq_map (name : GoString) :
    sanitizeFileName name = name.map (fun c => if isReservedChar c then '_' else c) :=
  replaceAllClass_eq_map isReservedChar '_' name

theorem sanitizeFileName_not_reserved (name : GoString) :
    ∀ c ∈ sanitizeFileName name, isReservedChar c = false := by
  intro c hc
  rw [sanitizeFileName_eq_map, List.mem_map] at hc
  obtain ⟨a, _, rfl⟩ := hc
  by_cases h : isReservedChar a = true
  · rw [if_pos h]; decide
  · rw [if_neg h]; simpa using h

theorem splitSlash_no_slash (s : GoString) (h : ∀ c ∈ s, c ≠ '/') :
    splitSlash s = [s] := by
  induction s with
  | nil => rfl
  | cons c cs ih =>
    have hc : c ≠ '/' := h c (List.mem_cons_self _ _)
    have hcs : splitSlash cs = [cs] := ih (fun d hd => h d (List.mem_cons_of_mem _ hd))
    simp [splitSlash, hc, hcs]

theorem mp3_name_no_slash (name : GoString) :
    ∀ c ∈ sanitizeFileName name ++ ".mp3".toList, c ≠ '/' := by
  intro c hc
  rcases List.mem_append.mp hc with h | h
  · intro hEq
    have := sanitizeFileName_not_reserved name c h
    rw [hEq] at this
    exact absurd this (by decide)
  · intro hEq
    rw [hEq] at h
    exact absurd h (by decide)

theorem filepathJoin_tempDir (x : GoString) (hsplit : splitSlash x = [x])
    (hlen : x.length ≥ 4) :
    filepathJoin [tempDir, x] = "tmp/".toList ++ x := by
  have hx0 : x ≠ [] := by
    intro h; rw [h] at hlen; simp at hlen
  have hx1 : x ≠ ".".toList := by
    intro h; rw [h] at hlen; simp at hlen
  have hx2 : x ≠ "..".toList := by
    intro h; rw [h] at hlen; simp at hlen
  have hpath : splitSlash ("tmp/".toList ++ x) = ["tmp".toList, x] := by
    simp [splitSlash, hsplit]
  have hj : "/".toList.intercalate ["tmp".toList, x] = "tmp/".toList ++ x := by
    simp [List.intercalate]
  have hfilter : List.filter (fun e => e != []) [tempDir, x] = [tempDir, x] := by
    simp [tempDir, hx0]
  unfold filepathJoin
  rw [hfilter]
  show filepathClean ("/".toList.intercalate ["tmp".toList, x]) = _
  rw [hj]
  unfold filepathClean
  rw [hpath]
  have hx1b : x ≠ ['.'] := hx1
  have hx2b : x ≠ ['.', '.'] := hx2
  simp [cleanPush, hx0, hx1b, hx2b, List.intercalate]

theorem downloadPath_eq (title : GoString) :
    downloadPath title = "tmp/".toList ++ (sanitizeFileName title ++ ".mp3".toList) :=
  filepathJoin_tempDir _ (splitSlash_no_slash _ (mp3_name_no_slash title)) (by simp)

theorem selectFormat_snoc (l : List Format) (f : Format) :
    selectFormat (l ++ [f]) = selectStep (selectFormat l) f := by
  simp [selectFormat, List.foldl_append]

theorem foldl_selectStep_some (l : List Format) (c : Format) :
    ∃ r, l.foldl selectStep (some c) = some r := by
  induction l generalizing c with
  | nil => exact ⟨c, rfl⟩
  | cons a t ih =>
    simp only [List.foldl_cons, selectStep]
    split
    · exact ih a
    · exact ih c

theorem selectFormat_eq_none_iff (l : List Format) :
    selectFormat l = none ↔ ∀ g ∈ l, ¬ g.AudioChannels > 0 := by
  unfold selectFormat
  induction l with
  | nil => simp
  | cons a t ih =>
    simp only [List.foldl_cons, selectStep]
    by_cases ha : a.AudioChannels > 0
    · rw [if_pos ha]
      obtain ⟨r, hr⟩ := foldl_selectStep_some t a
      rw [hr]
      constructor
      · intro h; cases h
      · intro h; exact absurd ha (h a (List.mem_cons_self _ _))
    · rw [if_neg ha, ih]
      constructor
      · intro h g hg
        rcases List.mem_cons.mp hg with rfl | hg
        · exact ha
        · exact h g hg
      · intro h g hg
        exact h g (List.mem_cons_of_mem _ hg)

theorem foldl_selectStep_keep (post : List Format) (r : Format)
    (h : ∀ g ∈ post, g.AudioChannels > 0 → g.Bitrate ≤ r.Bitrate) :
    post.foldl selectStep (some r) = some r := by
  induction post with
  | nil => rfl
  | cons a t ih =>
    simp only [List.foldl_cons, selectStep]
    have hnot : ¬ (a.AudioChannels > 0 ∧ a.Bitrate > r.Bitrate) := by
      rintro ⟨h1, h2⟩
      have := h a (List.mem_cons_self _ _) h1
      omega
    rw [if_neg hnot]
    exact ih (fun g hg => h g (List.mem_cons_of_mem _ hg))

theorem foldl_selectStep_below (pre : List Format) (r : Format)
    (h : ∀ g ∈ pre, g.AudioChannels > 0 → g.Bitrate < r.Bitrate)
    (init : Option Format) (hinit : ∀ c, init = some c → c.Bitrate < r.Bitrate) :
    ∀ c, pre.foldl selectStep init = some c → c.Bitrate < r.Bitrate := by
  induction pre generalizing init with
  | nil => simpa using hinit
  | cons a t ih =>
    simp only [List.foldl_cons]
    apply ih (fun g hg => h g (List.mem_cons_of_mem _ hg))
    intro c hc
    have ha := h a (List.mem_cons_self _ _)
    cases init with
    | none =>
      simp only [selectStep] at hc
      split at hc
      · next hpos => cases hc; exact ha hpos
      · cases hc
    | some cur =>
      simp only [selectStep] at hc
      split at hc
      · next hpos => cases hc; exact ha hpos.1
      · exact hinit c hc

theorem selectFormat_of_split (pre post : List Format) (r : Format)
    (hr : r.AudioChannels > 0)
    (hpre : ∀ g ∈ pre, g.AudioChannels > 0 → g.Bitrate < r.Bitrate)
    (hpost : ∀ g ∈ post, g.AudioChannels > 0 → g.Bitrate ≤ r.Bitrate) :
    selectFormat (pre ++ r :: post) = some r := by
  unfold selectFormat
  rw [List.foldl_append, List.foldl_cons]
  have hbelow := foldl_selectStep_below pre r hpre none (by intro c hc; cases hc)
  have hstep : selectStep (pre.foldl selectStep none) r = some r := by
    cases hs : pre.foldl selectStep none with
    | none => simp [selectStep, hr]
    | some cur =>
      have := hbelow cur hs
      simp only [selectStep]
      rw [if_pos ⟨hr, this⟩]
  rw [hstep]
  exact foldl_selectStep_keep post r hpost

theorem selectFormat_split (l : List Format) :
    ∀ r, selectFormat l = some r →
      ∃ pre post, l = pre ++ r :: post ∧ r.AudioChannels > 0 ∧
        (∀ g ∈ pre, g.AudioChannels > 0 → g.Bitrate < r.Bitrate) ∧
        (∀ g ∈ post, g.AudioChannels > 0 → g.Bitrate ≤ r.Bitrate) := by
  induction l using List.reverseRecOn with
  | nil => intro r h; cases h
  | append_singleton l f ih =>
    intro r h
    rw [selectFormat_snoc] at h
    cases hs : selectFormat l with
    | none =>
      rw [hs] at h
      simp only [selectStep] at h
      split at h
      · next hpos =>
        cases h
        refine ⟨l, [], rfl, hpos, ?_, by simp⟩
        intro g hg hgpos
        exact absurd hgpos ((selectFormat_eq_none_iff l).mp hs g hg)
      · cases h
    | some cur =>
      rw [hs] at h
      obtain ⟨pre, post, hl, hcur, hpre, hpost⟩ := ih cur hs
      simp only [selectStep] at h
      split at h
      · next hpos =>
        cases h
        refine ⟨l, [], rfl, hpos.1, ?_, by simp⟩
        intro g hg hgpos
        rw [hl] at hg
        rcases List.mem_append.mp hg with hg | hg
        · have := hpre g hg hgpos; omega
        · rcases List.mem_cons.mp hg with rfl | hg
          · exact hpos.2
          · have := hpost g hg hgpos; omega
      · next hneg =>
        cases h
        refine ⟨pre, post ++ [f], by simp [hl], hcur, hpre, ?_⟩
        intro g hg hgpos
        rcases List.mem_append.mp hg with hg | hg
        · exact hpost g hg hgpos
        · simp only [List.mem_singleton] at hg
          subst hg
          by_contra hlt
          exact hneg ⟨hgpos, by omega⟩

theorem takeWhile_dropWhile_run (p : Char → Bool) (g b : GoString) (q : Char)
    (hg : ∀ c ∈ g, p c = true) (hq : p q = false) :
    (g ++ q :: b).takeWhile p = g ∧ (g ++ q :: b).dropWhile p = q :: b := by
  induction g with
  | nil => simp [List.takeWhile, List.dropWhile, hq]
  | cons c cs ih =>
    have hc : p c = true := hg c (List.mem_cons_self _ _)
    have := ih (fun d hd => hg d (List.mem_cons_of_mem _ hd))
    simp [List.takeWhile, List.dropWhile, hc, this.1, this.2]

theorem fieldMatchAt_eq_some_iff (lit s g : GoString) :
    fieldMatchAt lit s = some g ↔
      ∃ b, s = lit ++ g ++ quoteChar :: b ∧ g ≠ [] ∧ quoteChar ∉ g := by
  constructor
  · intro h
    unfold fieldMatchAt at h
    split at h
    · next hp =>
      obtain ⟨t, rfl⟩ := List.isPrefixOf_iff_prefix.mp hp
      simp only [List.drop_left] at h
      split at h
      · cases h
      · next x b hd =>
        split at h
        · cases h
        · next hne =>
          cases h
          have hx : (x != quoteChar) = false := by
            have := List.head_dropWhile_not (fun c => c != quoteChar) t
            simp only [hd] at this
            simpa using this (by simp)
          have hxq : x = quoteChar := by simpa using hx
          refine ⟨b, ?_, hne, ?_⟩
          · have := List.takeWhile_append_dropWhile (fun c => c != quoteChar) t
            rw [hd, hxq] at this
            rw [List.append_assoc, this]
          · intro hmem
            have := List.mem_takeWhile_imp hmem
            simp at this
    · cases h
  · rintro ⟨b, rfl, hne, hq⟩
    have hrun := takeWhile_dropWhile_run (fun c => c != quoteChar) g b quoteChar
      (by
        intro c hc
        have : c ≠ quoteChar := fun h => hq (h ▸ hc)
        simpa using this)
      (by simp)
    unfold fieldMatchAt
    have hp : lit.isPrefixOf (lit ++ g ++ quoteChar :: b) = true := by
      rw [List.isPrefixOf_iff_prefix, List.append_assoc]
      exact List.prefix_append _ _
    rw [if_pos hp]
    have hdrop : List.drop lit.length (lit ++ g ++ quoteChar :: b) = g ++ quoteChar :: b := by
      rw [List.append_assoc, List.drop_left]
    simp only [hdrop, hrun.1, hrun.2]
    rw [if_neg hne]

theorem findFieldSubmatch_cons_some (lit : GoString) (c : Char) (cs g : GoString)
    (h : fieldMatchAt lit (c :: cs) = some g) :
    findFieldSubmatch lit (c :: cs) = some g := by
  unfold findFieldSubmatch
  rw [h]

theorem findFieldSubmatch_cons_none (lit : GoString) (c : Char) (cs : GoString)
    (h : fieldMatchAt lit (c :: cs) = none) :
    findFieldSubmatch lit (c :: cs) = findFieldSubmatch lit cs := by
  conv_lhs => unfold findFieldSubmatch
  rw [h]

theorem findFieldSubmatch_eq_none_iff (lit s : GoString) :
    findFieldSubmatch lit s = none ↔ ¬ HasFieldMatch lit s := by
  induction s with
  | nil =>
    simp only [findFieldSubmatch, true_iff]
    rintro ⟨a, g, b, h, _, _⟩
    have := congrArg List.length h
    simp at this
    omega
  | cons c cs ih =>
    cases hm : fieldMatchAt lit (c :: cs) with
    | some g =>
      rw [findFieldSubmatch_cons_some lit c cs g hm]
      obtain ⟨b, hs, hne, hq⟩ := (fieldMatchAt_eq_some_iff lit (c :: cs) g).mp hm
      constructor
      · intro h; cases h
      · intro hno
        exact absurd ⟨[], g, b, by simpa using hs, hne, hq⟩ hno
    | none =>
      rw [findFieldSubmatch_cons_none lit c cs hm, ih]
      constructor
      · rintro hno ⟨a, g, b, hs, hne, hq⟩
        cases a with
        | nil =>
          have : fieldMatchAt lit (c :: cs) = some g :=
            (fieldMatchAt_eq_some_iff lit (c :: cs) g).mpr ⟨b, by simpa using hs, hne, hq⟩
          rw [hm] at this
          cases this
        | cons a0 at1 =>
          apply hno
          refine ⟨at1, g, b, ?_, hne, hq⟩
          simp only [List.cons_append] at hs
          exact (List.cons.inj hs).2
      · rintro hno ⟨a, g, b, hs, hne, hq⟩
        exact hno ⟨c :: a, g, b, by simp [hs], hne, hq⟩

theorem findFieldSubmatch_of_matchAt (lit s g : GoString)
    (h : fieldMatchAt lit s = some g) : findFieldSubmatch lit s = some g := by
  cases s with
  | nil =>
    obtain ⟨b, hs, _, _⟩ := (fieldMatchAt_eq_some_iff lit [] g).mp h
    have := congrArg List.length hs
    simp at this
    omega
  | cons c cs => exact findFieldSubmatch_cons_some lit c cs g h

theorem findFieldSubmatch_skip (lit pre rest : GoString)
    (h : ∀ i < pre.length, fieldMatchAt lit (pre.drop i ++ rest) = none) :
    findFieldSubmatch lit (pre ++ rest) = findFieldSubmatch lit rest := by
  induction pre with
  | nil => rfl
  | cons c cs ih =>
    have h0 := h 0 (by simp)
    simp only [List.drop_zero, List.cons_append] at h0
    simp only [List.cons_append]
    rw [findFieldSubmatch_cons_none lit c (cs ++ rest) h0]
    apply ih
    intro i hi
    have := h (i + 1) (by simpa using hi)
    simpa using this

theorem fieldMatchAt_append_none (lit x post : GoString)
    (hlen : lit.length ≤ x.length) (h : lit.isPrefixOf x = false) :
    fieldMatchAt lit (x ++ post) = none := by
  unfold fieldMatchAt
  have : ¬ lit.isPrefixOf (x ++ post) = true := by
    intro hp
    rw [List.isPrefixOf_iff_prefix] at hp
    have hx : lit <+: x :=
      List.prefix_of_prefix_length_le hp (List.prefix_append x post) hlen
    rw [← List.isPrefixOf_iff_prefix, h] at hx
    cases hx
  rw [if_neg this]

theorem sampleFragment_url_submatch (post : GoString) :
    findFieldSubmatch downloadUrlLit (sampleFragment ++ post) =
      some "https:\\/\\/x\\/y?a=1\\u0026b=2".toList := by
  have hsf : sampleFragment =
      downloadUrlLit ++ "https:\\/\\/x\\/y?a=1\\u0026b=2".toList ++
        quoteChar :: ",\"title\":\"My Track\"".toList := by decide
  apply findFieldSubmatch_of_matchAt
  rw [fieldMatchAt_eq_some_iff]
  refine ⟨",\"title\":\"My Track\"".toList ++ post, ?_, by decide, by decide⟩
  rw [hsf]
  simp only [List.append_assoc, List.cons_append]

theorem sampleFragment_title_submatch (post : GoString) :
    findFieldSubmatch titleLit (sampleFragment ++ post) = some "My Track".toList := by
  have hsf : sampleFragment =
      "\"download_url\":\"https:\\/\\/x\\/y?a=1\\u0026b=2\",".toList ++
        (titleLit ++ "My Track".toList ++ [quoteChar]) := by decide
  have hskip : ∀ i < "\"download_url\":\"https:\\/\\/x\\/y?a=1\\u0026b=2\",".toList.length,
      titleLit.length ≤
        (("\"download_url\":\"https:\\/\\/x\\/y?a=1\\u0026b=2\",".toList).drop i ++
          (titleLit ++ "My Track".toList ++ [quoteChar])).length ∧
      titleLit.isPrefixOf
        (("\"download_url\":\"https:\\/\\/x\\/y?a=1\\u0026b=2\",".toList).drop i ++
          (titleLit ++ "My Track".toList ++ [quoteChar])) = false := by
    decide
  rw [hsf, List.append_assoc, findFieldSubmatch_skip]
  · apply findFieldSubmatch_of_matchAt
    rw [fieldMatchAt_eq_some_iff]
    refine ⟨post, ?_, by decide, by decide⟩
    simp only [List.append_assoc, List.cons_append, List.nil_append]
  · intro i hi
    rw [← List.append_assoc]
    exact fieldMatchAt_append_none _ _ _ (hskip i hi).1 (hskip i hi).2

theorem handleUpdate_keep (pc : Store) (u : Int) (e : Update)
    (h1 : e.linkFrom u = false) (h2 : e.choiceFrom u = false) :
    (handleUpdate pc e).1 u = pc u := by
  unfold handleUpdate
  cases hm : e.message with
  | none => rfl
  | some m =>
    simp only [Update.linkFrom, Update.choiceFrom, hm] at h1 h2
    simp only
    split
    · rfl
    · split
      · rfl
      · split
        · next hlink =>
          have hne : m.fromID ≠ u := by
            intro heq
            simp [heq, hlink] at h1
          simp [Function.update_apply, Ne.symm hne]
        · split
          · next hch =>
            have hne : m.fromID ≠ u := by
              intro heq
              rcases hch with hch | hch <;> simp [heq, hch] at h2
            cases pc m.fromID with
            | none => rfl
            | some link => simp [Function.update_apply, Ne.symm hne]
          · rfl

theorem handleUpdate_stays_none (pc : Store) (u : Int) (e : Update)
    (h1 : e.linkFrom u = false) (hn : pc u = none) :
    (handleUpdate pc e).1 u = none := by
  unfold handleUpdate
  cases hm : e.message with
  | none => exact hn
  | some m =>
    simp only [Update.linkFrom, hm] at h1
    simp only
    split
    · exact hn
    · split
      · exact hn
      · split
        · next hlink =>
          have hne : m.fromID ≠ u := by
            intro heq
            simp [heq, hlink] at h1
          simp [Function.update_apply, Ne.symm hne, hn]
        · split
          · cases pc m.fromID with
            | none => exact hn
            | some link =>
              simp only [Function.update_apply]
              split
              · rfl
              · exact hn
          · exact hn

theorem dispatch_keep (u : Int) (mid : List Update)
    (h : ∀ e ∈ mid, e.linkFrom u = false ∧ e.choiceFrom u = false) (pc : Store) :
    (dispatch pc mid).1 u = pc u := by
  induction mid generalizing pc with
  | nil => rfl
  | cons e t ih =>
    simp only [dispatch]
    rw [ih (fun x hx => h x (List.mem_cons_of_mem _ hx))]
    exact handleUpdate_keep pc u e (h e (List.mem_cons_self _ _)).1
      (h e (List.mem_cons_self _ _)).2

theorem dispatch_stays_none (u : Int) (mid : List Update)
    (h : ∀ e ∈ mid, e.linkFrom u = false) (pc : Store) (hn : pc u = none) :
    (dispatch pc mid).1 u = none := by
  induction mid generalizing pc with
  | nil => exact hn
  | cons e t ih =>
    simp only [dispatch]
    exact ih (fun x hx => h x (List.mem_cons_of_mem _ hx)) _
      (handleUpdate_stays_none pc u e (h e (List.mem_cons_self _ _)) hn)

theorem handleUpdate_link (pc : Store) (m : Message) (hs : m.isStart = false)
    (hl : (isYouTubeLink m.text || isSoundCloudLink m.text) = true) :
    handleUpdate pc ⟨some m⟩ =
      (Function.update pc m.fromID (some m.text),
        [.sendText m.chatID choosePlatformText true]) := by
  have hne : m.text ≠ [] := by
    intro h
    rw [h] at hl
    exact absurd hl (by decide)
  unfold Message.isStart at hs
  unfold handleUpdate
  simp only [hs, Bool.false_eq_true, if_false, hne, hl, if_true]

theorem choice_not_link (text : GoString)
    (h : text = "YouTube".toList ∨ text = "SoundCloud".toList) :
    text ≠ [] ∧ (isYouTubeLink text || isSoundCloudLink text) = false := by
  rcases h with h | h <;> subst h <;> decide

theorem handleUpdate_choice (pc : Store) (m : Message) (hs : m.isStart = false)
    (hc : m.text = "YouTube".toList ∨ m.text = "SoundCloud".toList) :
    handleUpdate pc ⟨some m⟩ =
      match pc m.fromID with
      | none => (pc, [.sendText m.chatID sendLinkFirstText false])
      | some link =>
        (Function.update pc m.fromID none, [.spawnTask m.chatID m.text link]) := by
  obtain ⟨hne, hnl⟩ := choice_not_link m.text hc
  unfold Message.isStart at hs
  unfold handleUpdate
  simp only [hs, Bool.false_eq_true, if_false, hne, hnl, hc, if_true]

theorem sendAudioFile_no_user_error (fs : FileSystem) (openErr : GoString)
    (uploadErr : Option GoString) (chatID : Int) (filePath : GoString) :
    ∀ eff ∈ (sendAudioFile fs openErr uploadErr chatID filePath).2,
      eff.isUserError = false := by
  unfold sendAudioFile
  cases fs filePath with
  | none => simp
  | some content =>
    simp only
    split
    · simp
    · simp [Effect.isUserError]

/-- Under the shared loop variable of Go before 1.22 the loop would leave
`format` on the last element whenever some candidate has audio; with one
variable per iteration (Go 1.22 and later) it designates the candidate chosen. -/
theorem selectFormatSharedVar_differs :
    selectFormatSharedVar [⟨2, 256⟩, ⟨0, 320⟩] = some ⟨0, 320⟩ ∧
    selectFormat [⟨2, 256⟩, ⟨0, 320⟩] = some ⟨2, 256⟩ := by
  decide

/-! ## Claims -/

/-- C1: the link classifier is total and decides by substring containment:
`isYouTubeLink text` holds exactly when `text` contains `youtube.com/` or
`youtu.be/`, `isSoundCloudLink text` exactly when it contains
`soundcloud.com/`, a text with none of the markers is classified as no link,
and the three sample texts are classified as YouTube, SoundCloud and no link. -/
theorem C1_classifier_by_containment :
    (∀ text : GoString,
      (isYouTubeLink text = true ↔
        ("youtube.com/".toList <:+: text ∨ "youtu.be/".toList <:+: text)) ∧
      (isSoundCloudLink text = true ↔ "soundcloud.com/".toList <:+: text) ∧
      ((¬ "youtube.com/".toList <:+: text ∧ ¬ "youtu.be/".toList <:+: text ∧
          ¬ "soundcloud.com/".toList <:+: text) →
        isYouTubeLink text = false ∧ isSoundCloudLink text = false)) ∧
    isYouTubeLink [] = false ∧ isSoundCloudLink [] = false ∧
    isYouTubeLink "check this https://youtu.be/abc123".toList = true ∧
    isSoundCloudLink "https://soundcloud.com/artist/track".toList = true ∧
    isYouTubeLink "hello".toList = false ∧
    isSoundCloudLink "hello".toList = false := by
  refine ⟨fun text => ⟨?_, ?_, ?_⟩, by decide, by decide, by decide, by decide,
    by decide, by decide⟩
  · unfold isYouTubeLink
    rw [Bool.or_eq_true, stringsContains_iff, stringsContains_iff]
  · unfold isSoundCloudLink
    rw [stringsContains_iff]
  · rintro ⟨h1, h2, h3⟩
    constructor
    · cases h : isYouTubeLink text with
      | false => rfl
      | true =>
        unfold isYouTubeLink at h
        rw [Bool.or_eq_true, stringsContains_iff, stringsContains_iff] at h
        exact absurd h (by tauto)
    · cases h : isSoundCloudLink text with
      | false => rfl
      | true =>
        unfold isSoundCloudLink at h
        rw [stringsContains_iff] at h
        exact absurd h h3

/-- C3: after the selection loop of `downloadYouTube` (each iteration having
its own `f`, as in Go 1.22 and later), `format` designates `r` exactly when `r` is a candidate with `AudioChannels > 0`, every such
candidate before it has a strictly smaller `Bitrate` and every such candidate
after it a `Bitrate` not larger (the first-encountered audio candidate of
maximum bitrate); once the video is fetched, the function fails with the
no-audio-stream error exactly when no candidate has `AudioChannels > 0`; and
the sample candidates select the bitrate-256 one. -/
theorem C3_selects_first_max_bitrate_audio :
    (∀ (formats : List Format) (r : Format),
      selectFormat formats = some r ↔
        ∃ pre post, formats = pre ++ r :: post ∧ r.AudioChannels > 0 ∧
          (∀ g ∈ pre, g.AudioChannels > 0 → g.Bitrate < r.Bitrate) ∧
          (∀ g ∈ post, g.AudioChannels > 0 → g.Bitrate ≤ r.Bitrate)) ∧
    (∀ (convert : Video → Format → GoString → ConvertOutcome) (url : GoString)
        (video : Video),
      (downloadYouTube (fun _ => .ok video) convert url).2 = some .noAudioStream ↔
        ∀ g ∈ video.Formats, ¬ g.AudioChannels > 0) ∧
    selectFormat [⟨0, 320⟩, ⟨2, 128⟩, ⟨1, 256⟩] = some ⟨1, 256⟩ := by
  refine ⟨fun formats r => ⟨selectFormat_split formats r, ?_⟩, ?_, by decide⟩
  · rintro ⟨pre, post, rfl, hr, hpre, hpost⟩
    exact selectFormat_of_split pre post r hr hpre hpost
  · intro convert url video
    rw [← selectFormat_eq_none_iff]
    unfold downloadYouTube
    cases hs : selectFormat video.Formats with
    | none => simp [hs]
    | some format =>
      cases hc : convert video format (downloadPath video.Title) <;> simp [hs, hc]

/-- C5 (as stated, refuted): two requests with the different titles `a/b` and
`a_b` get the same local file path. -/
theorem C5_different_titles_share_a_path :
    "a/b".toList ≠ "a_b".toList ∧
    downloadPath "a/b".toList = downloadPath "a_b".toList ∧
    downloadPath "a/b".toList = "tmp/a_b.mp3".toList := by
  decide

/-- C5 (amended): two requests get the same local file path exactly when the
sanitized forms of their titles are equal. -/
theorem C5_paths_equal_iff_sanitized_equal (t1 t2 : GoString) :
    downloadPath t1 = downloadPath t2 ↔ sanitizeFileName t1 = sanitizeFileName t2 := by
  rw [downloadPath_eq, downloadPath_eq]
  constructor
  · intro h
    exact List.append_cancel_right (List.append_cancel_left h)
  · intro h
    rw [h]

/-- C7: `sanitizeFileName title` has the length of `title`, holds none of the
characters `< > : " / \ | ? *`, has `_` where `title` has one of them and the
character of `title` everywhere else; and the path joined from `tempDir` and
the sanitized title with `.mp3` is `tmp/` followed by that name, whose only
components are `tmp` and the name, the name being neither `.` nor `..`. -/
theorem C7_sanitized_name_is_direct_child (title : GoString) :
    (sanitizeFileName title).length = title.length ∧
    (∀ c ∈ "<>:\"/\\|?*".toList, c ∉ sanitizeFileName title) ∧
    (∀ i : Nat, (sanitizeFileName title)[i]? =
      (title[i]?).map (fun c => if c ∈ "<>:\"/\\|?*".toList then '_' else c)) ∧
    downloadPath title =
      tempDir ++ '/' :: (sanitizeFileName title ++ ".mp3".toList) ∧
    splitSlash (downloadPath title) =
      [tempDir, sanitizeFileName title ++ ".mp3".toList] ∧
    sanitizeFileName title ++ ".mp3".toList ≠ "..".toList ∧
    sanitizeFileName title ++ ".mp3".toList ≠ ".".toList := by
  have hcls : ∀ c : Char, (c ∈ "<>:\"/\\|?*".toList) ↔ isReservedChar c = true := by
    intro c
    have hq : quoteChar = Char.ofNat 34 := rfl
    have hlist : "<>:\"/\\|?*".toList =
        ['<', '>', ':', Char.ofNat 34, '/', Char.ofNat 92, '|', '?', '*'] := by decide
    rw [hlist]
    simp only [isReservedChar, hq, List.mem_cons, List.mem_singleton, Bool.or_eq_true,
      decide_eq_true_eq, List.mem_nil_iff, or_false, or_assoc]
  have hname := mp3_name_no_slash title
  have hlen : (sanitizeFileName title ++ ".mp3".toList).length ≥ 4 := by simp
  refine ⟨?_, ?_, ?_, ?_, ?_, ?_, ?_⟩
  · rw [sanitizeFileName_eq_map, List.length_map]
  · intro c hc hmem
    have h1 := (hcls c).mp hc
    rw [sanitizeFileName_not_reserved title c hmem] at h1
    cases h1
  · intro i
    rw [sanitizeFileName_eq_map, List.getElem?_map]
    congr 1
    funext c
    by_cases h : isReservedChar c = true
    · rw [if_pos h, if_pos ((hcls c).mpr h)]
    · rw [if_neg h, if_neg (fun hc => h ((hcls c).mp hc))]
  · rw [downloadPath_eq]; rfl
  · rw [downloadPath_eq]
    have hs := splitSlash_no_slash _ hname
    show splitSlash ('t' :: 'm' :: 'p' :: '/' ::
      (sanitizeFileName title ++ ".mp3".toList)) = _
    simp only [splitSlash, hs]
    rfl
  · intro h; rw [h] at hlen; simp at hlen
  · intro h; rw [h] at hlen; simp at hlen

/-- C4 (as stated, refuted): on a 200 page whose body is the sample fragment,
the URL returned is not `https://x/y?a=1&b=2`: only `&` is unescaped, the
`\/` sequences stay. -/
theorem C4_sample_url_keeps_escaped_slashes :
    getSoundCloudDownloadURL (.ok ⟨200, -1, sampleFragment, none⟩) ≠
      ("https://x/y?a=1&b=2".toList, "My Track".toList, none) ∧
    getSoundCloudDownloadURL (.ok ⟨200, -1, sampleFragment, none⟩) =
      ("https:\\/\\/x\\/y?a=1&b=2".toList, "My Track".toList, none) := by
  decide

/-- C4 (amended): on a 200 page whose readable body holds the sample fragment,
with no match of the `download_url` pattern or of the `title` pattern starting
before it, `getSoundCloudDownloadURL` returns the URL `https:\/\/x\/y?a=1&b=2`
(backslashes literal) and the title `My Track` with no error. -/
theorem C4_sample_scrape_result (pre post : GoString) (cl : Int)
    (hurl : ∀ i < pre.length,
      fieldMatchAt downloadUrlLit (pre.drop i ++ (sampleFragment ++ post)) = none)
    (htitle : ∀ i < pre.length,
      fieldMatchAt titleLit (pre.drop i ++ (sampleFragment ++ post)) = none) :
    getSoundCloudDownloadURL (.ok ⟨200, cl, pre ++ (sampleFragment ++ post), none⟩) =
      ("https:\\/\\/x\\/y?a=1&b=2".toList, "My Track".toList, none) := by
  have h1 : findFieldSubmatch downloadUrlLit (pre ++ (sampleFragment ++ post)) =
      some "https:\\/\\/x\\/y?a=1\\u0026b=2".toList := by
    rw [findFieldSubmatch_skip _ _ _ hurl, sampleFragment_url_submatch]
  have h2 : findFieldSubmatch titleLit (pre ++ (sampleFragment ++ post)) =
      some "My Track".toList := by
    rw [findFieldSubmatch_skip _ _ _ htitle, sampleFragment_title_submatch]
  have h3 : stringsReplaceAll "https:\\/\\/x\\/y?a=1\\u0026b=2".toList
      "\\u0026".toList "&".toList = "https:\\/\\/x\\/y?a=1&b=2".toList := by decide
  unfold getSoundCloudDownloadURL
  simp only [h1, h2, h3]
  rfl

/-- C4 (amended), at a page with markup before and after the fragment. -/
theorem C4_sample_scrape_result_witness :
    getSoundCloudDownloadURL
        (.ok ⟨200, 512, "<html>\"id\":\"7\",".toList ++
          (sampleFragment ++ ",\"kind\":\"track\"</html>".toList), none⟩) =
      ("https:\\/\\/x\\/y?a=1&b=2".toList, "My Track".toList, none) :=
  C4_sample_scrape_result "<html>\"id\":\"7\",".toList
    ",\"kind\":\"track\"</html>".toList 512 (by decide) (by decide)

/-- C10: on a page fetched with status 200 and a readable body,
`getSoundCloudDownloadURL` returns the scrape error with empty URL and title
exactly when the body has no match of `"download_url":"` followed by at least
one non-quote character and a quote, and returns no error exactly when it has
one; when there is such a match and no match of the title pattern, the call
succeeds with the title `soundcloud_track`. -/
theorem C10_scrape_fails_iff_no_download_url (cl : Int) (body : GoString) :
    (getSoundCloudDownloadURL (.ok ⟨200, cl, body, none⟩) = ([], [], some .scrapeFailed) ↔
      ¬ HasFieldMatch "\"download_url\":\"".toList body) ∧
    ((getSoundCloudDownloadURL (.ok ⟨200, cl, body, none⟩)).2.2 = none ↔
      HasFieldMatch "\"download_url\":\"".toList body) ∧
    (HasFieldMatch "\"download_url\":\"".toList body →
      ¬ HasFieldMatch "\"title\":\"".toList body →
      (getSoundCloudDownloadURL (.ok ⟨200, cl, body, none⟩)).2.2 = none ∧
      (getSoundCloudDownloadURL (.ok ⟨200, cl, body, none⟩)).2.1 =
        "soundcloud_track".toList) ∧
    getSoundCloudDownloadURL (.ok ⟨200, -1, "see \"download_url\":\"u\"".toList, none⟩) =
      ("u".toList, "soundcloud_track".toList, none) := by
  have hcases : findFieldSubmatch downloadUrlLit body = none ↔
      ¬ HasFieldMatch downloadUrlLit body := findFieldSubmatch_eq_none_iff _ _
  have htitle : findFieldSubmatch titleLit body = none ↔
      ¬ HasFieldMatch titleLit body := findFieldSubmatch_eq_none_iff _ _
  change (_ ↔ ¬ HasFieldMatch downloadUrlLit body) ∧
    (_ ↔ HasFieldMatch downloadUrlLit body) ∧
    (HasFieldMatch downloadUrlLit body → ¬ HasFieldMatch titleLit body → _) ∧ _
  refine ⟨?_, ?_, ?_, by decide⟩
  · rw [← hcases]
    unfold getSoundCloudDownloadURL
    cases h1 : findFieldSubmatch downloadUrlLit body with
    | none => simp [h1]
    | some m1 =>
      cases h2 : findFieldSubmatch titleLit body <;> simp [h1, h2]
  · rw [← not_iff_not, ← hcases]
    unfold getSoundCloudDownloadURL
    cases h1 : findFieldSubmatch downloadUrlLit body with
    | none => simp [h1]
    | some m1 =>
      cases h2 : findFieldSubmatch titleLit body <;> simp [h1, h2]
  · intro hd ht
    have h2 := htitle.mpr ht
    have h1 : findFieldSubmatch downloadUrlLit body ≠ none := fun h => hcases.mp h hd
    unfold getSoundCloudDownloadURL
    cases h1c : findFieldSubmatch downloadUrlLit body with
    | none => exact absurd h1c h1
    | some m1 => simp [h1c, h2]

/-- C2: once the loop has stored the link `L` of user `u`, and after any
updates that are neither a link nor a platform choice of `u`, the next platform
choice of `u` starts the download task with `url = L` (and does nothing else)
and removes the entry of `u`; after any further updates that are not a link of
`u`, another platform choice of `u` finds no entry: the reply is the
send-a-link-first text, no task is started and the map is unchanged.  The
three messages are taken not to be `start` commands. -/
theorem C2_pending_link_round_trip (pc : Store) (u : Int) (L : GoString)
    (linkMsg choice1 choice2 : Message) (mid1 mid2 : List Update)
    (hL : (isYouTubeLink L || isSoundCloudLink L) = true)
    (hlink : linkMsg.fromID = u ∧ linkMsg.text = L ∧ linkMsg.isStart = false)
    (hc1 : choice1.fromID = u ∧ choice1.isStart = false ∧
      (choice1.text = "YouTube".toList ∨ choice1.text = "SoundCloud".toList))
    (hc2 : choice2.fromID = u ∧ choice2.isStart = false ∧
      (choice2.text = "YouTube".toList ∨ choice2.text = "SoundCloud".toList))
    (hmid1 : ∀ e ∈ mid1, e.linkFrom u = false ∧ e.choiceFrom u = false)
    (hmid2 : ∀ e ∈ mid2, e.linkFrom u = false) :
    (dispatch pc (⟨some linkMsg⟩ :: mid1)).1 u = some L ∧
    handleUpdate (dispatch pc (⟨some linkMsg⟩ :: mid1)).1 ⟨some choice1⟩ =
      (Function.update (dispatch pc (⟨some linkMsg⟩ :: mid1)).1 u none,
        [.spawnTask choice1.chatID choice1.text L]) ∧
    (dispatch pc (⟨some linkMsg⟩ :: mid1 ++ [⟨some choice1⟩])).1 u = none ∧
    handleUpdate (dispatch pc (⟨some linkMsg⟩ :: mid1 ++ ⟨some choice1⟩ :: mid2)).1
        ⟨some choice2⟩ =
      ((dispatch pc (⟨some linkMsg⟩ :: mid1 ++ ⟨some choice1⟩ :: mid2)).1,
        [.sendText choice2.chatID sendLinkFirstText false]) := by
  obtain ⟨hu, ht, hs⟩ := hlink
  obtain ⟨hu1, hs1, ht1⟩ := hc1
  obtain ⟨hu2, hs2, ht2⟩ := hc2
  have hdisp : ∀ (s : Store) (xs ys : List Update),
      (dispatch s (xs ++ ys)).1 = (dispatch (dispatch s xs).1 ys).1 := by
    intro s xs
    induction xs generalizing s with
    | nil => intro ys; rfl
    | cons x t ih => intro ys; simp only [List.cons_append, dispatch]; exact ih _ ys
  have hstored : (dispatch pc (⟨some linkMsg⟩ :: mid1)).1 u = some L := by
    simp only [dispatch]
    rw [dispatch_keep u mid1 hmid1, handleUpdate_link pc linkMsg hs (by rw [ht]; exact hL)]
    have hsame := Function.update_same linkMsg.fromID (some linkMsg.text) pc
    rw [hu, ht] at hsame
    rw [hu, ht]
    exact hsame
  have hstep : handleUpdate (dispatch pc (⟨some linkMsg⟩ :: mid1)).1 ⟨some choice1⟩ =
      (Function.update (dispatch pc (⟨some linkMsg⟩ :: mid1)).1 u none,
        [.spawnTask choice1.chatID choice1.text L]) := by
    rw [handleUpdate_choice _ choice1 hs1 ht1, hu1, hstored]
  have hcleared : (dispatch pc (⟨some linkMsg⟩ :: mid1 ++ [⟨some choice1⟩])).1 u = none := by
    rw [hdisp]
    show (handleUpdate (dispatch pc (⟨some linkMsg⟩ :: mid1)).1 ⟨some choice1⟩).1 u = none
    rw [hstep]
    simp only [Function.update_same]
  refine ⟨hstored, hstep, hcleared, ?_⟩
  have hsplit : ⟨some linkMsg⟩ :: mid1 ++ ⟨some choice1⟩ :: mid2 =
      (⟨some linkMsg⟩ :: mid1 ++ [⟨some choice1⟩]) ++ mid2 := by simp
  have hnone : (dispatch pc (⟨some linkMsg⟩ :: mid1 ++ ⟨some choice1⟩ :: mid2)).1 u = none := by
    rw [hsplit, hdisp]
    exact dispatch_stays_none u mid2 hmid2 _ hcleared
  rw [handleUpdate_choice _ choice2 hs2 ht2, hu2, hnone]

/-- C2, on a run: user 42 sends a link, user 7 sends a link in between, user
42 chooses a platform, user 7 chooses a platform, user 42 chooses again. -/
theorem C2_pending_link_round_trip_witness :
    handleUpdate
        (dispatch (fun _ => none)
          (⟨some (textMessage 1 42 "https://youtu.be/abc123".toList)⟩ ::
            [⟨some (textMessage 2 7 "https://soundcloud.com/a/b".toList)⟩])).1
        ⟨some (textMessage 1 42 "YouTube".toList)⟩ =
      (Function.update
        (dispatch (fun _ => none)
          (⟨some (textMessage 1 42 "https://youtu.be/abc123".toList)⟩ ::
            [⟨some (textMessage 2 7 "https://soundcloud.com/a/b".toList)⟩])).1 42 none,
        [.spawnTask 1 "YouTube".toList "https://youtu.be/abc123".toList]) ∧
    (handleUpdate
        (dispatch (fun _ => none)
          (⟨some (textMessage 1 42 "https://youtu.be/abc123".toList)⟩ ::
            [⟨some (textMessage 2 7 "https://soundcloud.com/a/b".toList)⟩] ++
            ⟨some (textMessage 1 42 "YouTube".toList)⟩ ::
            [⟨some (textMessage 2 7 "SoundCloud".toList)⟩])).1
        ⟨some (textMessage 1 42 "SoundCloud".toList)⟩).2 =
      [.sendText 1 sendLinkFirstText false] :=
  have h := C2_pending_link_round_trip (fun _ => none) 42 "https://youtu.be/abc123".toList
    (textMessage 1 42 "https://youtu.be/abc123".toList)
    (textMessage 1 42 "YouTube".toList) (textMessage 1 42 "SoundCloud".toList)
    [⟨some (textMessage 2 7 "https://soundcloud.com/a/b".toList)⟩]
    [⟨some (textMessage 2 7 "SoundCloud".toList)⟩]
    (by decide) (by decide) (by decide) (by decide) (by decide) (by decide)
  ⟨h.2.1, congrArg Prod.snd h.2.2.2⟩

/-- C6 (as stated, refuted): the adapter succeeds, the upload fails, and the
task sends no error message to the chat: the failure is only logged. -/
theorem C6_failed_upload_sends_no_message :
    (sendAudioFile smallFileFs "no such file".toList (some "timeout".toList) 5
      "tmp/a.mp3".toList).1 = some (.library "timeout".toList) ∧
    (downloadTask fixedPathAdapter failingAdapter "no such file".toList
      (some "timeout".toList) smallFileFs 5 "YouTube".toList "https://youtu.be/x".toList).1 =
      [.uploadAudio 5 "a.mp3".toList, .logSendFailure (.library "timeout".toList)] ∧
    ((downloadTask fixedPathAdapter failingAdapter "no such file".toList
      (some "timeout".toList) smallFileFs 5 "YouTube".toList
      "https://youtu.be/x".toList).1.filter Effect.isUserError).length = 0 := by
  decide

/-- C6 (amended): a platform other than the two names gives the
unsupported-platform error; when the switch ends with an error (an adapter
failed or the platform is unsupported) the task sends exactly one error
message to the chat and does nothing else, so no delivery is attempted; when
it ends without an error the task does what `sendAudioFile` does, adds one log
line if `sendAudioFile` failed, and sends no error message to the chat. -/
theorem C6_adapter_errors_reach_user (youTube soundCloud : Adapter)
    (openErr : GoString) (uploadErr : Option GoString) (fs : FileSystem)
    (chatID : Int) (platform url : GoString) :
    (platform = "YouTube".toList ∨ platform = "SoundCloud".toList ∨
      runAdapter youTube soundCloud platform url fs =
        (([], some .unsupportedPlatform), fs)) ∧
    (match (runAdapter youTube soundCloud platform url fs).1.2 with
      | some e =>
        downloadTask youTube soundCloud openErr uploadErr fs chatID platform url =
          ([.sendError chatID e], (runAdapter youTube soundCloud platform url fs).2)
      | none =>
        (downloadTask youTube soundCloud openErr uploadErr fs chatID platform url).1 =
          (sendAudioFile (runAdapter youTube soundCloud platform url fs).2 openErr
              uploadErr chatID (runAdapter youTube soundCloud platform url fs).1.1).2 ++
            (match (sendAudioFile (runAdapter youTube soundCloud platform url fs).2
                openErr uploadErr chatID
                (runAdapter youTube soundCloud platform url fs).1.1).1 with
              | some e => [.logSendFailure e]
              | none => []) ∧
        ∀ eff ∈ (downloadTask youTube soundCloud openErr uploadErr fs chatID
            platform url).1, eff.isUserError = false) := by
  constructor
  · by_cases h1 : platform = "YouTube".toList
    · exact Or.inl h1
    · by_cases h2 : platform = "SoundCloud".toList
      · exact Or.inr (Or.inl h2)
      · right; right
        unfold runAdapter
        rw [if_neg h1, if_neg h2]
  · unfold downloadTask
    rcases hr : runAdapter youTube soundCloud platform url fs with ⟨⟨p, err⟩, fs1⟩
    cases err with
    | some e => rfl
    | none =>
      have hsent := sendAudioFile_no_user_error fs1 openErr uploadErr chatID p
      simp only [deliverAndCleanup]
      rcases hs : sendAudioFile fs1 openErr uploadErr chatID p with ⟨e, sent⟩
      rw [hs] at hsent
      cases e with
      | none => exact ⟨by simp, hsent⟩
      | some e1 =>
        refine ⟨rfl, ?_⟩
        intro eff heff
        rcases List.mem_append.mp heff with h | h
        · exact hsent eff h
        · simp only [List.mem_singleton] at h
          rw [h]
          rfl

/-- C8: when the download response declares a `Content-Length` above 50 MiB
(52428800 bytes), `downloadSoundCloud` returns the empty path and the
too-large error carrying the size in MB, and no byte of the body reaches the
disk: the file created at the title's path is empty and every other path is
as before. -/
theorem C8_too_large_writes_no_body (env : ScEnv) (url : GoString) (fs : FileSystem)
    (downloadURL title : GoString) (resp : HttpResponse)
    (hscrape : getSoundCloudDownloadURL (env.pageGet url) = (downloadURL, title, none))
    (hcreate : env.createErr (downloadPath title) = none)
    (hget : env.fileGet downloadURL = .ok resp)
    (hlarge : resp.contentLength > 52428800) :
    (downloadSoundCloud env url fs).1 =
      ([], some (.tooLarge ((resp.contentLength.tdiv 1024).tdiv 1024))) ∧
    (downloadSoundCloud env url fs).2 (downloadPath title) = some [] ∧
    (∀ q, q ≠ downloadPath title → (downloadSoundCloud env url fs).2 q = fs q) := by
  have hbig : resp.contentLength > maxDownloadSize := by
    unfold maxDownloadSize; omega
  unfold downloadSoundCloud
  simp only [hscrape, hcreate, hget, if_pos hbig]
  refine ⟨trivial, ?_, ?_⟩
  · simp [osCreate]
  · intro q hq
    simp [osCreate, hq]

/-- C8, on a response that declares 60 MiB: the error reports 60 MB and the
file at `tmp/My Track.mp3` is empty. -/
theorem C8_too_large_writes_no_body_witness :
    (downloadSoundCloud sampleScEnv "https://soundcloud.com/a/b".toList emptyFs).1 =
      ([], some (.tooLarge 60)) ∧
    (downloadSoundCloud sampleScEnv "https://soundcloud.com/a/b".toList emptyFs).2
      "tmp/My Track.mp3".toList = some [] :=
  have h := C8_too_large_writes_no_body sampleScEnv "https://soundcloud.com/a/b".toList
    emptyFs "https:\\/\\/x\\/y?a=1&b=2".toList "My Track".toList
    ⟨200, 60 * 1024 * 1024, "ID3".toList, none⟩ (by decide) (by decide) (by rfl) (by decide)
  ⟨h.1.trans (by decide), (congrArg _ (by decide)).trans h.2.1⟩

/-- C9: whenever the switch of the task ends without an error and with the
path `filePath`, after the task (its delivery step: `sendAudioFile`, then the
cleanup) there is no file at `filePath`, whatever the upload did; and if the
file there is larger than 50 MiB (52428800 bytes), `sendAudioFile` returns the
too-large-for-transport error having attempted no upload, and the task attempts
none. -/
theorem C9_delivery_removes_file (youTube soundCloud : Adapter) (openErr : GoString)
    (uploadErr : Option GoString) (fs fs1 : FileSystem) (chatID : Int)
    (platform url filePath : GoString)
    (hadapt : runAdapter youTube soundCloud platform url fs = ((filePath, none), fs1)) :
    (downloadTask youTube soundCloud openErr uploadErr fs chatID platform url).2
      filePath = none ∧
    (deliverAndCleanup fs1 openErr uploadErr chatID filePath).2 filePath = none ∧
    (∀ content, fs1 filePath = some content → (content.length : Int) > 52428800 →
      sendAudioFile fs1 openErr uploadErr chatID filePath =
        (some (.tooLargeForTelegram content.length), []) ∧
      ∀ eff ∈ (downloadTask youTube soundCloud openErr uploadErr fs chatID
          platform url).1, eff.isUpload = false) := by
  have hclean : (deliverAndCleanup fs1 openErr uploadErr chatID filePath).2 filePath = none := by
    unfold deliverAndCleanup
    rcases sendAudioFile fs1 openErr uploadErr chatID filePath with ⟨e, sent⟩
    cases e <;> simp [osRemove]
  have htask : downloadTask youTube soundCloud openErr uploadErr fs chatID platform url =
      deliverAndCleanup fs1 openErr uploadErr chatID filePath := by
    unfold downloadTask
    rw [hadapt]
  refine ⟨by rw [htask]; exact hclean, hclean, ?_⟩
  intro content hc hbig
  have hsend : sendAudioFile fs1 openErr uploadErr chatID filePath =
      (some (.tooLargeForTelegram content.length), []) := by
    unfold sendAudioFile
    have hbig2 : (content.length : Int) > 50 * 1024 * 1024 := by omega
    simp only [hc, if_pos hbig2]
  refine ⟨hsend, ?_⟩
  rw [htask]
  unfold deliverAndCleanup
  rw [hsend]
  simp [Effect.isUpload]

/-- C9, on a file of 50 MiB and one byte and on a failed upload of a small
file: the file is gone after the task, and the big one was not uploaded. -/
theorem C9_delivery_removes_file_witness :
    (downloadTask fixedPathAdapter failingAdapter "no such file".toList none bigFileFs 5
      "YouTube".toList "https://youtu.be/x".toList).2 "tmp/a.mp3".toList = none ∧
    sendAudioFile bigFileFs "no such file".toList none 5 "tmp/a.mp3".toList =
      (some (.tooLargeForTelegram 52428801), []) :=
  have h := C9_delivery_removes_file fixedPathAdapter failingAdapter "no such file".toList
    none bigFileFs bigFileFs 5 "YouTube".toList "https://youtu.be/x".toList
    "tmp/a.mp3".toList rfl
  have hfile : bigFileFs "tmp/a.mp3".toList = some (List.replicate 52428801 'x') :=
    if_pos rfl
  have hres := (h.2.2 (List.replicate 52428801 'x') hfile
    (by rw [List.length_replicate]; decide)).1
  ⟨h.1, by rw [List.length_replicate] at hres; exact hres⟩

end TgMp3




